import Mathlib

/-!
Verification of the local time zone resolution engine of this chrono fork.

The data model and the `Local` facade are embedded from
`src/error.rs` and `src/offset/local/mod.rs`. The platform backend
(`unix.rs`, `tz_info`), the fixed offset type (`offset/fixed.rs`) and the
resolution result type (`offset/mod.rs`) are not part of the source tree;
definitions for them are modelled from the specification, as marked in
their doc comments. Naive datetimes are modelled as integer seconds on
their timeline; a datetime with a zone attached is a naive UTC value
paired with an offset.
-/

set_option autoImplicit false

namespace Chrono

/-- Error type for date and time operations, embedded from `src/error.rs`.
The payload of the three parsing variants is the byte index (`u32`),
modelled as `Nat`. -/
inductive Error where
  | InvalidParameter
  | DateOutOfRange
  | InvalidDate
  | Inconsistent
  | InvalidCharacter (index : Nat)
  | InvalidValue (index : Nat)
  | UnsupportedSpecifier (index : Nat)
  | FieldOutOfRange
  | FieldImpossible
  | FieldNotEnough
  | InvalidInput
  | InputTooShort
  | InputTooLong
  | BadFormat
deriving DecidableEq, Repr

/-- Enumeration of the `Error` variants of `src/error.rs`, the three
parsing variants taken at byte index `i`. -/
def Error.all (i : Nat) : List Error :=
  [.InvalidParameter, .DateOutOfRange, .InvalidDate, .Inconsistent,
   .InvalidCharacter i, .InvalidValue i, .UnsupportedSpecifier i,
   .FieldOutOfRange, .FieldImpossible, .FieldNotEnough,
   .InvalidInput, .InputTooShort, .InputTooLong, .BadFormat]

/-- Modelled from the spec: the offset model of `offset/fixed.rs`, which is
not under the source tree. An offset is signed seconds east of UTC
(`local_minus_utc`). -/
structure FixedOffset where
  local_minus_utc : Int
deriving DecidableEq, Repr

/-- Modelled from the spec: `FixedOffset::west` of `offset/fixed.rs`, which
is not under the source tree. Construction from seconds west of UTC fails
with a parameter error outside the bound of one day. -/
def FixedOffset.west (secs : Int) : Except Error FixedOffset :=
  if secs.natAbs < 86400 then .ok ⟨-secs⟩ else .error .InvalidParameter

/-- Modelled from the spec: the resolution result type of `offset/mod.rs`,
which is not under the source tree. The spec describes a three way outcome
Single / Ambiguous / None, but the exhaustive match in the test
`verify_against_date_command_local` of `src/offset/local/mod.rs` covers
exactly `Ok(Single)`, `Ok(Ambiguous)` and `Err(_)`, so in this repository
the type has the two `Ok` variants and the gap case travels on the error
channel. -/
inductive LocalResult (T : Type) where
  | Single (value : T)
  | Ambiguous (earliest latest : T)
deriving DecidableEq, Repr

/-- Modelled from the spec: `ResolutionResult::single` of `offset/mod.rs`,
which is not under the source tree. It succeeds only for the `Single`
variant and fails with an inconsistency error otherwise. -/
def LocalResult.single {T : Type} : LocalResult T → Except Error T
  | .Single value => .ok value
  | .Ambiguous _ _ => .error .Inconsistent

/-- A datetime in a zone: the naive UTC seconds together with the offset in
effect, mirroring `DateTime::from_utc(naive_utc, offset)`. -/
structure DateTime where
  naive_utc : Int
  offset : FixedOffset
deriving DecidableEq, Repr

/-- The naive local reading of a zoned datetime: the UTC seconds plus the
offset. -/
def DateTime.naive_local (dt : DateTime) : Int :=
  dt.naive_utc + dt.offset.local_minus_utc

/-- The local calendar day of a zoned datetime, as days since the epoch
(floor division of the local seconds), modelling the `date()` component. -/
def DateTime.date (dt : DateTime) : Int :=
  Int.fdiv dt.naive_local 86400

/-- Modelled from the spec: the rule data of the Unix backend
(`unix.rs` / `tz_info`), which is not under the source tree. Section 4.4 of
the spec resolves a local value against the nearest transition boundary
with the offsets in effect immediately before and after it, so the rule
set is that boundary (a UTC instant) and those two offsets, in seconds. -/
structure TzRules where
  boundary : Int
  offset_before : Int
  offset_after : Int
deriving DecidableEq, Repr

/-- Modelled from the spec: `offset_at_instant` of the rule source
interface (section 4.2), which is not under the source tree. It is
deterministic, total and never ambiguous: before the boundary the earlier
offset applies, from the boundary on the later one. -/
def TzRules.offset_at_instant (z : TzRules) (utc : Int) : Int :=
  if utc < z.boundary then z.offset_before else z.offset_after

/-- Modelled from the spec: `inner::naive_to_local` of the backend
(`unix.rs`), which is not under the source tree. With `local = false` the
input is a UTC instant and exactly one offset applies (section 4.1). With
`local = true` the input is a naive local value `L` and the ambiguity
algorithm of section 4.4 runs: the UTC candidates are
`U1 = L - offset_before` and `U2 = L - offset_after`; a candidate is valid
when it falls on the side of the boundary where its offset is in effect;
both valid gives the overlap result with the earlier UTC candidate first,
exactly one valid gives the single result, and neither valid is the gap,
which fails with the existence error `InvalidDate` (per the doc of
`Error::InvalidDate` in `src/error.rs`, which covers a time in the gap of
a DST transition). -/
def TzRules.naive_to_local (z : TzRules) (d : Int) (isLocal : Bool) :
    Except Error (LocalResult DateTime) :=
  if isLocal then
    let u1 := d - z.offset_before
    let u2 := d - z.offset_after
    if u1 < z.boundary then
      if z.boundary ≤ u2 then
        .ok (.Ambiguous ⟨u1, ⟨z.offset_before⟩⟩ ⟨u2, ⟨z.offset_after⟩⟩)
      else
        .ok (.Single ⟨u1, ⟨z.offset_before⟩⟩)
    else
      if z.boundary ≤ u2 then
        .ok (.Single ⟨u2, ⟨z.offset_after⟩⟩)
      else
        .error .InvalidDate
  else
    .ok (.Single ⟨d, ⟨z.offset_at_instant d⟩⟩)

/-- The `Local` marker from `src/offset/local/mod.rs`: a struct with no
fields. -/
structure Local
deriving DecidableEq, Repr

/-- `TimeZone::from_offset` for `Local`, from `src/offset/local/mod.rs`:
the offset argument is ignored and the marker value is returned. -/
def Local.from_offset (_offset : FixedOffset) : Local :=
  Local.mk

/-- `TimeZone::from_local_datetime` for `Local` (non wasm path), from
`src/offset/local/mod.rs`: delegates to `inner::naive_to_local` with
`local = true`. The active rule set stands in for the ambient backend
state. -/
def Local.from_local_datetime (z : TzRules) (ldt : Int) :
    Except Error (LocalResult DateTime) :=
  z.naive_to_local ldt true

/-- `TimeZone::from_utc_datetime` for `Local` (non wasm path), from
`src/offset/local/mod.rs`: `inner::naive_to_local(utc, false).unwrap()`.
The unwrap of the backend result is modelled by mapping the branches the
unwrap would panic on to errors. -/
def Local.from_utc_datetime (z : TzRules) (utc : Int) : Except Error DateTime :=
  match z.naive_to_local utc false with
  | .ok (.Single dt) => .ok dt
  | .ok (.Ambiguous _ _) => .error .Inconsistent
  | .error e => .error e

/-- `TimeZone::offset_from_local_datetime` for `Local`, from
`src/offset/local/mod.rs`: `from_local_datetime(local)?.single()?.offset()`. -/
def Local.offset_from_local_datetime (z : TzRules) (ldt : Int) :
    Except Error FixedOffset := do
  let r ← Local.from_local_datetime z ldt
  let dt ← r.single
  pure dt.offset

/-- `TimeZone::offset_from_utc_datetime` for `Local`, from
`src/offset/local/mod.rs`: the offset component of
`from_utc_datetime(utc)`. -/
def Local.offset_from_utc_datetime (z : TzRules) (utc : Int) :
    Except Error FixedOffset :=
  (Local.from_utc_datetime z utc).map DateTime.offset

/-- Modelled from the spec: `Local::now` (non wasm path) delegates to
`inner::now()` of the backend, which is not under the source tree. Per
section 4.6 it reads the system clock for the current UTC instant, asks
the backend for `offset_at_instant` and returns the combined value; the
clock reading (which may fail) is passed explicitly. -/
def Local.now (z : TzRules) (clock : Except Error Int) : Except Error DateTime := do
  let u ← clock
  pure ⟨u, ⟨z.offset_at_instant u⟩⟩

/-- `Local::today` from `src/offset/local/mod.rs`:
`Ok(Local::now()?.date())`. -/
def Local.today (z : TzRules) (clock : Except Error Int) : Except Error Int := do
  let dt ← Local.now z clock
  pure dt.date

/-- `Local::now` on the wasm host bridge path, from
`src/offset/local/mod.rs`: the runtime minute valued timezone offset is
multiplied by 60 and fed to `FixedOffset::west`; the current UTC reading
is passed explicitly. -/
def Local.wasm_now (tz_offset_minutes : Int) (utc_now : Int) :
    Except Error DateTime := do
  let offset ← FixedOffset.west (tz_offset_minutes * 60)
  pure ⟨utc_now, offset⟩

/-- `TimeZone::from_local_datetime` for `Local` on the wasm host bridge
path, from `src/offset/local/mod.rs`: the runtime offset in minutes times
60 goes through `FixedOffset::west`, the local value is shifted down by
`local_minus_utc`, and the result is always `Single`. -/
def Local.wasm_from_local_datetime (tz_offset_minutes : Int) (ldt : Int) :
    Except Error (LocalResult DateTime) := do
  let offset ← FixedOffset.west (tz_offset_minutes * 60)
  pure (.Single ⟨ldt - offset.local_minus_utc, offset⟩)

/-- `TimeZone::from_utc_datetime` for `Local` on the wasm host bridge
path, from `src/offset/local/mod.rs`: `FixedOffset::west_opt(minutes *
60).unwrap()` applied to the naive UTC value; the unwrap is modelled on
the error channel. -/
def Local.wasm_from_utc_datetime (tz_offset_minutes : Int) (utc : Int) :
    Except Error DateTime := do
  let offset ← FixedOffset.west (tz_offset_minutes * 60)
  pure ⟨utc, offset⟩

/-- The UTC instants named by a resolution result: the single candidate,
or both candidates of an ambiguous one. -/
def LocalResult.utcCandidates : LocalResult DateTime → List Int
  | .Single dt => [dt.naive_utc]
  | .Ambiguous a b => [a.naive_utc, b.naive_utc]

/-- The fall back transition of the spec test scenario: offset +02:00 to
+01:00 at 2023-10-29T01:00:00Z (epoch second 1698541200). -/
def fallBackZone : TzRules :=
  ⟨1698541200, 7200, 3600⟩

/-- The spring forward transition of the spec test scenario: offset +01:00
to +02:00 at 2023-03-26T01:00:00Z (epoch second 1679792400). -/
def springForwardZone : TzRules :=
  ⟨1679792400, 3600, 7200⟩



/-- The offsets carried by a resolution result. -/
def LocalResult.offsets : LocalResult DateTime → List FixedOffset
  | .Single dt => [dt.offset]
  | .Ambiguous a b => [a.offset, b.offset]

/-- Decidable equality for `Except`, used to evaluate the model at
concrete inputs. -/
instance decEqExcept {e a : Type} [DecidableEq e] [DecidableEq a] : DecidableEq (Except e a)
  | .ok x, .ok y =>
    if h : x = y then .isTrue (by rw [h]) else .isFalse (by intro hc; cases hc; exact h rfl)
  | .ok _, .error _ => .isFalse (by intro hc; cases hc)
  | .error _, .ok _ => .isFalse (by intro hc; cases hc)
  | .error x, .error y =>
    if h : x = y then .isTrue (by rw [h]) else .isFalse (by intro hc; cases hc; exact h rfl)

theorem from_utc_datetime_eq (z : TzRules) (utc : Int) :
    Local.from_utc_datetime z utc = .ok ⟨utc, ⟨z.offset_at_instant utc⟩⟩ := rfl

theorem from_local_datetime_eq (z : TzRules) (ldt : Int) :
    Local.from_local_datetime z ldt =
      if ldt - z.offset_before < z.boundary then
        if z.boundary ≤ ldt - z.offset_after then
          .ok (.Ambiguous ⟨ldt - z.offset_before, ⟨z.offset_before⟩⟩
            ⟨ldt - z.offset_after, ⟨z.offset_after⟩⟩)
        else
          .ok (.Single ⟨ldt - z.offset_before, ⟨z.offset_before⟩⟩)
      else
        if z.boundary ≤ ldt - z.offset_after then
          .ok (.Single ⟨ldt - z.offset_after, ⟨z.offset_after⟩⟩)
        else
          .error .InvalidDate := rfl

/-- C1: `offset_from_local_datetime` fails on every ambiguous or nonexistent
local input — an ambiguous resolution collapses to the consistency error
`Inconsistent` and a failing resolution (the DST gap existence error)
propagates unchanged — and it returns an offset exactly when
`from_local_datetime` yields the `Single` variant, in which case the offset
is that single value's offset. -/
theorem C1_offset_from_local_requires_single (z : TzRules) (ldt : Int) :
    (∀ a b, Local.from_local_datetime z ldt = .ok (.Ambiguous a b) →
      Local.offset_from_local_datetime z ldt = .error .Inconsistent) ∧
    (∀ e, Local.from_local_datetime z ldt = .error e →
      Local.offset_from_local_datetime z ldt = .error e) ∧
    (∀ o, Local.offset_from_local_datetime z ldt = .ok o ↔
      ∃ dt, Local.from_local_datetime z ldt = .ok (.Single dt) ∧ o = dt.offset) := by
  refine ⟨?_, ?_, ?_⟩
  · intro a b h
    unfold Local.offset_from_local_datetime
    rw [h]
    rfl
  · intro e h
    unfold Local.offset_from_local_datetime
    rw [h]
    rfl
  · intro o
    rcases h : Local.from_local_datetime z ldt with e | r
    · constructor
      · intro hc
        unfold Local.offset_from_local_datetime at hc
        rw [h] at hc
        exact Except.noConfusion (show Except.error (α := FixedOffset) e = .ok o from hc)
      · rintro ⟨dt, hdt, _⟩
        exact Except.noConfusion hdt
    · rcases r with dt | ⟨a, b⟩
      · constructor
        · intro hc
          unfold Local.offset_from_local_datetime at hc
          rw [h] at hc
          have hc2 : Except.ok dt.offset = .ok o := hc
          injection hc2 with h3
          exact ⟨dt, rfl, h3.symm⟩
        · rintro ⟨dt2, hdt, ho⟩
          injection Except.ok.inj hdt with h4
          subst h4
          rw [ho]
          unfold Local.offset_from_local_datetime
          rw [h]
          rfl
      · constructor
        · intro hc
          unfold Local.offset_from_local_datetime at hc
          rw [h] at hc
          exact Except.noConfusion
            (show Except.error (α := FixedOffset) Error.Inconsistent = .ok o from hc)
        · rintro ⟨dt2, hdt, _⟩
          exact LocalResult.noConfusion (Except.ok.inj hdt)

theorem C1_witness :
    Local.offset_from_local_datetime fallBackZone 1698546600 = .error .Inconsistent :=
  (C1_offset_from_local_requires_single fallBackZone 1698546600).1
    ⟨1698539400, ⟨7200⟩⟩ ⟨1698543000, ⟨3600⟩⟩ (by decide)

/-- C2: for every naive UTC datetime the backend call with `local = false`
returns `Ok(Single(..))` with exactly one offset, so the unwrap inside
`from_utc_datetime` is unreachable and the function always succeeds. -/
theorem C2_from_utc_datetime_never_fails (z : TzRules) (utc : Int) :
    z.naive_to_local utc false = .ok (.Single ⟨utc, ⟨z.offset_at_instant utc⟩⟩) ∧
    Local.from_utc_datetime z utc = .ok ⟨utc, ⟨z.offset_at_instant utc⟩⟩ :=
  ⟨rfl, rfl⟩

/-- C3: round trip — converting a UTC instant `U` to local time with
`from_utc_datetime` and resolving the resulting naive local value back with
`from_local_datetime` succeeds, and the candidate set of the result
(the single candidate, or either ambiguous candidate) contains `U`. -/
theorem C3_round_trip_contains_utc (z : TzRules) (U : Int) :
    ∃ dt r, Local.from_utc_datetime z U = .ok dt ∧
      Local.from_local_datetime z dt.naive_local = .ok r ∧
      U ∈ r.utcCandidates := by
  refine ⟨⟨U, ⟨z.offset_at_instant U⟩⟩, ?_⟩
  have hA := from_utc_datetime_eq z U
  have hL : (⟨U, ⟨z.offset_at_instant U⟩⟩ : DateTime).naive_local =
      U + z.offset_at_instant U := rfl
  rw [hL]
  rcases lt_or_le U z.boundary with hU | hU
  · have ho : z.offset_at_instant U = z.offset_before := if_pos hU
    rw [ho] at hA ⊢
    rw [from_local_datetime_eq]
    have e1 : U + z.offset_before - z.offset_before = U := by ring
    rw [e1, if_pos hU]
    by_cases h2 : z.boundary ≤ U + z.offset_before - z.offset_after
    · rw [if_pos h2]
      exact ⟨_, hA, rfl, by simp [LocalResult.utcCandidates]⟩
    · rw [if_neg h2]
      exact ⟨_, hA, rfl, by simp [LocalResult.utcCandidates]⟩
  · have ho : z.offset_at_instant U = z.offset_after := if_neg (not_lt.mpr hU)
    rw [ho] at hA ⊢
    rw [from_local_datetime_eq]
    have e2 : U + z.offset_after - z.offset_after = U := by ring
    rw [e2]
    by_cases h1 : U + z.offset_after - z.offset_before < z.boundary
    · rw [if_pos h1, if_pos hU]
      exact ⟨_, hA, rfl, by simp [LocalResult.utcCandidates]⟩
    · rw [if_neg h1, if_pos hU]
      exact ⟨_, hA, rfl, by simp [LocalResult.utcCandidates]⟩

/-- C4 counterexample: the claim says a local timestamp in a DST gap
resolves to a `None` variant rather than an error, but at the spec spring
forward scenario (transition +01:00 to +02:00 at 2023-03-26T01:00:00Z,
local 2023-03-26T02:30:00) `from_local_datetime` returns the error
`InvalidDate`; in this repository the resolution result type has no `None`
variant at all. -/
theorem C4_counterexample_gap_is_error :
    Local.from_local_datetime springForwardZone 1679797800 = .error .InvalidDate := by
  decide

/-- C4 amended: the local-to-UTC resolution outcome is a `Result` of a
two way `LocalResult` (`Single` or `Ambiguous`); every local timestamp in
the half open gap window of a forward transition resolves to the error
`Error::InvalidDate` on the error channel. -/
theorem C4_gap_fails_with_invalid_date (z : TzRules) (ldt : Int)
    (_hfwd : z.offset_before < z.offset_after)
    (hlo : z.boundary + z.offset_before ≤ ldt)
    (hhi : ldt < z.boundary + z.offset_after) :
    Local.from_local_datetime z ldt = .error .InvalidDate := by
  rw [from_local_datetime_eq]
  split_ifs with h1 h2 h2
  · exact absurd h1 (by omega)
  · exact absurd h1 (by omega)
  · exact absurd h2 (by omega)
  · rfl

theorem C4_witness :
    Local.from_local_datetime springForwardZone 1679797800 = .error .InvalidDate :=
  C4_gap_fails_with_invalid_date springForwardZone 1679797800
    (by decide) (by decide) (by decide)

/-- C5: whenever `from_local_datetime` returns the `Ambiguous` variant,
the first candidate yields the earlier UTC instant — it carries the
pre-transition offset and the second the post-transition offset. The
witness instantiates this at the spec fall back scenario, +02:00 to +01:00
at 2023-10-29T01:00:00Z with local 2023-10-29T02:30:00. -/
theorem C5_ambiguous_orders_earlier_utc_first (z : TzRules) (ldt : Int) (a b : DateTime)
    (h : Local.from_local_datetime z ldt = .ok (.Ambiguous a b)) :
    a.naive_utc < b.naive_utc ∧
    a.offset.local_minus_utc = z.offset_before ∧
    b.offset.local_minus_utc = z.offset_after := by
  simp only [Local.from_local_datetime, TzRules.naive_to_local, if_true] at h
  split_ifs at h with h1 h2 h2 <;> simp_all
  obtain ⟨ha, hb⟩ := h
  subst ha
  subst hb
  refine ⟨by simp; omega, rfl, rfl⟩

theorem C5_witness :
    Local.from_local_datetime fallBackZone 1698546600 =
      .ok (.Ambiguous ⟨1698539400, ⟨7200⟩⟩ ⟨1698543000, ⟨3600⟩⟩) ∧
    (1698539400 : Int) < 1698543000 ∧
    (7200 : Int) = fallBackZone.offset_before ∧
    (3600 : Int) = fallBackZone.offset_after := by
  have h : Local.from_local_datetime fallBackZone 1698546600 =
      .ok (.Ambiguous ⟨1698539400, ⟨7200⟩⟩ ⟨1698543000, ⟨3600⟩⟩) := by decide
  have hc := C5_ambiguous_orders_earlier_utc_first fallBackZone 1698546600
    ⟨1698539400, ⟨7200⟩⟩ ⟨1698543000, ⟨3600⟩⟩ h
  exact ⟨h, hc.1, hc.2.1.symm, hc.2.2.symm⟩

/-- C6: the error type of `src/error.rs` consists of exactly the fourteen
variants enumerated in `Error.all`, with no duplicates; in particular the
four spec categories that do exist (parameter, range, existence,
consistency) are among them, and no variant identifying malformed zone
database data exists — the claim of a distinct malformed-data error value
fails on this code, whose own TODO comment says TZfile errors are not yet
covered. -/
theorem C6_error_variant_enumeration :
    (∀ e : Error, ∃ i, e ∈ Error.all i) ∧ (Error.all 0).Nodup ∧
    (Error.all 0).length = 14 := by
  refine ⟨?_, by decide, by decide⟩
  intro e
  cases e with
  | InvalidCharacter i => exact ⟨i, by simp [Error.all]⟩
  | InvalidValue i => exact ⟨i, by simp [Error.all]⟩
  | UnsupportedSpecifier i => exact ⟨i, by simp [Error.all]⟩
  | _ => exact ⟨0, by simp [Error.all]⟩

/-- C7: on the wasm host bridge backend every offset produced by `now`,
`from_local_datetime` and `from_utc_datetime` is a whole number of
minutes: each is built by `FixedOffset::west` from the runtime minute
valued offset multiplied by 60, so the seconds value is divisible
by 60. -/
theorem C7_wasm_offsets_are_whole_minutes (m u ldt utc : Int) :
    (∀ dt, Local.wasm_now m u = .ok dt → (60 : Int) ∣ dt.offset.local_minus_utc) ∧
    (∀ r o, Local.wasm_from_local_datetime m ldt = .ok r → o ∈ r.offsets →
      (60 : Int) ∣ o.local_minus_utc) ∧
    (∀ dt, Local.wasm_from_utc_datetime m utc = .ok dt →
      (60 : Int) ∣ dt.offset.local_minus_utc) := by
  rcases hw : FixedOffset.west (m * 60) with e | f
  · refine ⟨?_, ?_, ?_⟩
    · intro dt h
      unfold Local.wasm_now at h
      rw [hw] at h
      exact Except.noConfusion (show Except.error (α := DateTime) e = .ok dt from h)
    · intro r o h ho
      unfold Local.wasm_from_local_datetime at h
      rw [hw] at h
      exact Except.noConfusion
        (show Except.error (α := LocalResult DateTime) e = .ok r from h)
    · intro dt h
      unfold Local.wasm_from_utc_datetime at h
      rw [hw] at h
      exact Except.noConfusion (show Except.error (α := DateTime) e = .ok dt from h)
  · have hdvd : (60 : Int) ∣ f.local_minus_utc := by
      unfold FixedOffset.west at hw
      split_ifs at hw
      · injection hw with h2
        subst h2
        exact ⟨-m, by ring⟩
    refine ⟨?_, ?_, ?_⟩
    · intro dt h
      unfold Local.wasm_now at h
      rw [hw] at h
      have h2 : Except.ok (⟨u, f⟩ : DateTime) = .ok dt := h
      injection h2 with h3
      subst h3
      exact hdvd
    · intro r o h ho
      unfold Local.wasm_from_local_datetime at h
      rw [hw] at h
      have h2 : Except.ok
          (LocalResult.Single (⟨ldt - f.local_minus_utc, f⟩ : DateTime)) = .ok r := h
      injection h2 with h3
      subst h3
      simp only [LocalResult.offsets, List.mem_singleton] at ho
      subst ho
      exact hdvd
    · intro dt h
      unfold Local.wasm_from_utc_datetime at h
      rw [hw] at h
      have h2 : Except.ok (⟨utc, f⟩ : DateTime) = .ok dt := h
      injection h2 with h3
      subst h3
      exact hdvd

theorem C7_witness :
    Local.wasm_now 90 0 = .ok ⟨0, ⟨-5400⟩⟩ ∧ (60 : Int) ∣ (-5400 : Int) :=
  ⟨by decide, (C7_wasm_offsets_are_whole_minutes 90 0 0 0).1 ⟨0, ⟨-5400⟩⟩ (by decide)⟩

/-- C8: `Local` is a stateless zero field marker — any two values of the
type are equal — and `TimeZone::from_offset` returns the same `Local`
value for every offset argument. -/
theorem C8_local_is_stateless_marker :
    (∀ l1 l2 : Local, l1 = l2) ∧
    (∀ o1 o2 : FixedOffset, Local.from_offset o1 = Local.from_offset o2) :=
  ⟨fun l1 l2 => by cases l1; cases l2; rfl, fun _ _ => rfl⟩

/-- C9: `Local::today` succeeds exactly when `Local::now` succeeds for
the same clock reading; on success it returns precisely the date component
of the datetime `now` returns, and when `now` fails `today` propagates the
same error. -/
theorem C9_today_is_date_of_now (z : TzRules) (clock : Except Error Int) :
    (∀ dt, Local.now z clock = .ok dt → Local.today z clock = .ok dt.date) ∧
    (∀ e, Local.now z clock = .error e → Local.today z clock = .error e) ∧
    ((∃ d, Local.today z clock = .ok d) ↔ ∃ dt, Local.now z clock = .ok dt) := by
  rcases clock with e | u
  · refine ⟨?_, ?_, ?_⟩
    · intro dt h
      exact Except.noConfusion (show Except.error (α := DateTime) e = .ok dt from h)
    · intro e2 h
      have h2 : Except.error (α := DateTime) e = .error e2 := h
      injection h2 with h3
      subst h3
      rfl
    · constructor
      · rintro ⟨d, hd⟩
        exact Except.noConfusion (show Except.error (α := Int) e = .ok d from hd)
      · rintro ⟨dt, hdt⟩
        exact Except.noConfusion (show Except.error (α := DateTime) e = .ok dt from hdt)
  · refine ⟨?_, ?_, ?_⟩
    · intro dt h
      have h2 : Except.ok (⟨u, ⟨z.offset_at_instant u⟩⟩ : DateTime) = .ok dt := h
      injection h2 with h3
      subst h3
      rfl
    · intro e2 h
      exact Except.noConfusion
        (show Except.ok (⟨u, ⟨z.offset_at_instant u⟩⟩ : DateTime) = .error e2 from h)
    · constructor
      · rintro ⟨d, hd⟩
        exact ⟨⟨u, ⟨z.offset_at_instant u⟩⟩, rfl⟩
      · rintro ⟨dt, hdt⟩
        exact ⟨DateTime.date ⟨u, ⟨z.offset_at_instant u⟩⟩, rfl⟩

theorem C9_witness :
    Local.today fallBackZone (.ok 0) = .ok 0 :=
  (C9_today_is_date_of_now fallBackZone (.ok 0)).1 ⟨0, ⟨7200⟩⟩ (by decide)

/-- C10: for every naive UTC datetime, `from_utc_datetime` succeeds with
some datetime and `offset_from_utc_datetime` returns exactly the offset
component of that datetime: the two facade paths agree. -/
theorem C10_offset_paths_agree (z : TzRules) (utc : Int) :
    ∃ dt, Local.from_utc_datetime z utc = .ok dt ∧
      Local.offset_from_utc_datetime z utc = .ok dt.offset :=
  ⟨⟨utc, ⟨z.offset_at_instant utc⟩⟩, rfl, rfl⟩

end Chrono
